import Mathlib

/-!
Verification of the tiny_solver / dynamic autodiff core of the ceres-solver
repository, shallowly embedded over the exact rationals.

Conventions used by the embedding:
* C++ doubles are modelled by the exact rationals; the algebra and the control
  flow of the source are translated verbatim.
* Eigen's square-root based comparisons are embedded by their exact squared
  equivalents: for real vectors, the comparison norm(v) < t holds iff
  0 < t and normSq v < t * t, and norm(dx) < c * norm(x) holds iff
  (0 < c and 0 < normSq x) and normSq dx < c^2 * normSq x.  These
  equivalences are exact over the reals, so no behaviour is changed.
* Division by zero yields 0 over the rationals where IEEE doubles would
  produce NaN or an infinity; no theorem below depends on that corner.
-/

/-- Dot product of two rational vectors, Eigen's v.dot(w). -/
def vecDot {n : ℕ} (u v : Fin n → ℚ) : ℚ := ∑ i, u i * v i

/-- Squared Euclidean norm, Eigen's v.squaredNorm(). -/
def vecNormSq {n : ℕ} (v : Fin n → ℚ) : ℚ := vecDot v v

/-- Matrix-vector product, Eigen's A * x. -/
def matVecMul {m n : ℕ} (A : Fin m → Fin n → ℚ) (x : Fin n → ℚ) : Fin m → ℚ :=
  fun i => vecDot (A i) x

/-- Eigen's NumTraits<double>::dummy_precision(), the default tolerance of
isApprox, which is 1e-12 for doubles. -/
def dummyPrecision : ℚ := 1 / 10 ^ 12

/-- Eigen's u.isApprox(v): normSq (u - v) <= eps^2 * min (normSq u) (normSq v).
This formulation is already square-root free in Eigen itself. -/
def eigenIsApprox {n : ℕ} (u v : Fin n → ℚ) : Prop :=
  vecNormSq (fun i => u i - v i) ≤ dummyPrecision ^ 2 * min (vecNormSq u) (vecNormSq v)

instance {n : ℕ} (u v : Fin n → ℚ) : Decidable (eigenIsApprox u v) :=
  inferInstanceAs (Decidable (_ ≤ _))

/-- Exact embedding of the comparison error_.norm() < threshold on real
vectors: the norm is nonnegative, so the comparison holds iff the threshold is
positive and the squared norm is below its square. -/
def vecNormLt {n : ℕ} (v : Fin n → ℚ) (t : ℚ) : Prop :=
  0 < t ∧ vecNormSq v < t * t

instance {n : ℕ} (v : Fin n → ℚ) (t : ℚ) : Decidable (vecNormLt v t) :=
  inferInstanceAs (Decidable (_ ∧ _))

/-- Exact embedding of dx_.norm() < rel * x.norm() on real vectors: the left
side is nonnegative, so the comparison holds iff the right side is positive
(rel positive and x nonzero) and the squares compare. -/
def stepNormLt {n m : ℕ} (dx : Fin n → ℚ) (x : Fin m → ℚ) (rel : ℚ) : Prop :=
  (0 < rel ∧ 0 < vecNormSq x) ∧ vecNormSq dx < rel ^ 2 * vecNormSq x

instance {n m : ℕ} (dx : Fin n → ℚ) (x : Fin m → ℚ) (rel : ℚ) :
    Decidable (stepNormLt dx x rel) :=
  inferInstanceAs (Decidable (_ ∧ _))

/-- Exact embedding of g_.array().abs().maxCoeff() < threshold for n >= 1
(Eigen asserts on n = 0): the max of the absolute values is below the
threshold iff every absolute value is. -/
def maxAbsLt {n : ℕ} (g : Fin n → ℚ) (t : ℚ) : Prop := ∀ i, |g i| < t

instance {n : ℕ} (g : Fin n → ℚ) (t : ℚ) : Decidable (maxAbsLt g t) :=
  inferInstanceAs (Decidable (∀ i, _))

/-- Eigen's jtj_.diagonal().maxCoeff().  The 0 seed of the fold is inert for
the use in the solver: the diagonal of J^T J consists of column squared norms,
which are nonnegative (and Eigen asserts on an empty matrix). -/
def diagMaxCoeff {n : ℕ} (A : Fin n → Fin n → ℚ) : ℚ :=
  (List.ofFn fun i => A i i).foldr max 0

namespace TinySolver

/-- The Status enum of TinySolver (tiny_solver.h). -/
inductive Status where
  | RUNNING
  | GRADIENT_TOO_SMALL
  | RELATIVE_STEP_SIZE_TOO_SMALL
  | ERROR_TOO_SMALL
  | HIT_MAX_ITERATIONS
  | FAILED_TO_EVALUATE_COST_FUNCTION
  | FAILED_TO_SOLVER_LINEAR_SYSTEM
  deriving DecidableEq

/-- TinySolver::SolverParameters. -/
structure SolverParameters where
  gradient_threshold : ℚ
  relative_step_threshold : ℚ
  error_threshold : ℚ
  initial_scale_factor : ℚ
  max_iterations : ℕ
  deriving DecidableEq

/-- The default SolverParameters constructor values. -/
def defaultParameters : SolverParameters :=
  ⟨1 / 10 ^ 16, 1 / 10 ^ 16, 1 / 10 ^ 16, 1 / 10 ^ 3, 100⟩

/-- The Function template argument of TinySolver: a cost function called
either with a jacobian buffer (in Update) or with NULL for the jacobian (the
residual-only evaluation of the tentative step).  The C++ callable writes the
residual and jacobian buffers and returns a bool; we model one call as
returning the written buffers together with that bool.  The jacobian is the
R x P matrix (the column-major buffer entry p*R + r is entry (r, p)). -/
structure Function (P R : ℕ) where
  evalJac : (Fin P → ℚ) → ((Fin R → ℚ) × (Fin R → Fin P → ℚ) × Bool)
  evalRes : (Fin P → ℚ) → ((Fin R → ℚ) × Bool)

/-- The linear solver: TinySolver's LinearSolver template argument, used as
linear_solver_.compute(jtj_augmented_); dx_ = linear_solver_.solve(g_). -/
def LinearSolver (P : ℕ) := (Fin P → Fin P → ℚ) → (Fin P → ℚ) → (Fin P → ℚ)

/-- The members written by TinySolver::Update: status plus error_, jtj_, g_. -/
structure UpdateResult (P R : ℕ) where
  status : Status
  error : Fin R → ℚ
  jtj : Fin P → Fin P → ℚ
  g : Fin P → ℚ

/-- TinySolver::Update (tiny_solver.h lines 181-196).  The boolean returned by
the cost function is discarded, exactly as in the source, where the call
function(&x(0), &error_(0), &jacobian_(0, 0)) ignores the return value
(the source marks this with a TODO). -/
def Update {P R : ℕ} (prm : SolverParameters) (f : Function P R) (x : Fin P → ℚ) :
    UpdateResult P R :=
  let fr := f.evalJac x
  let J := fr.2.1
  let error : Fin R → ℚ := fun k => -(fr.1 k)
  let jtj : Fin P → Fin P → ℚ := fun p q => ∑ k, J k p * J k q
  let g : Fin P → ℚ := fun p => ∑ k, J k p * error k
  let status :=
    if maxAbsLt g prm.gradient_threshold then Status.GRADIENT_TOO_SMALL
    else if vecNormLt error prm.error_threshold then Status.ERROR_TOO_SMALL
    else Status.RUNNING
  ⟨status, error, jtj, g⟩

/-- The mutable solver state during TinySolver::Solve: the parameter vector x,
the members error_, jtj_, g_ refreshed by Update, the damping pair (u, v),
the current status, and results.num_failed_linear_solves (an int member that
Solve increments but never resets). -/
structure State (P R : ℕ) where
  x : Fin P → ℚ
  error : Fin R → ℚ
  jtj : Fin P → Fin P → ℚ
  g : Fin P → ℚ
  u : ℚ
  v : ℚ
  status : Status
  num_failed_linear_solves : ℤ

/-- jtj_augmented_ = jtj_; jtj_augmented_.diagonal().array() += u. -/
def jtjAugmented {P R : ℕ} (s : State P R) : Fin P → Fin P → ℚ :=
  fun p q => s.jtj p q + if p = q then s.u else 0

/-- dx_ = linear_solver_.solve(g_) after compute(jtj_augmented_). -/
def stepDx {P R : ℕ} (ls : LinearSolver P) (s : State P R) : Fin P → ℚ :=
  ls (jtjAugmented s) s.g

/-- bool solved = (jtj_augmented_ * dx_).isApprox(g_). -/
def stepSolved {P R : ℕ} (ls : LinearSolver P) (s : State P R) : Prop :=
  eigenIsApprox (matVecMul (jtjAugmented s) (stepDx ls s)) s.g

instance {P R : ℕ} (ls : LinearSolver P) (s : State P R) : Decidable (stepSolved ls s) :=
  inferInstanceAs (Decidable (eigenIsApprox _ _))

/-- dx_.norm() < params.relative_step_threshold * x.norm(). -/
def stepTooSmall {P R : ℕ} (prm : SolverParameters) (ls : LinearSolver P) (s : State P R) :
    Prop :=
  stepNormLt (stepDx ls s) s.x prm.relative_step_threshold

instance {P R : ℕ} (prm : SolverParameters) (ls : LinearSolver P) (s : State P R) :
    Decidable (stepTooSmall prm ls s) :=
  inferInstanceAs (Decidable (stepNormLt _ _ _))

/-- x_new_ = x + dx_. -/
def stepXNew {P R : ℕ} (ls : LinearSolver P) (s : State P R) : Fin P → ℚ :=
  fun i => s.x i + stepDx ls s i

/-- rho = (error_.squaredNorm() - f_x_new_.squaredNorm()) / dx_.dot(u * dx_ + g_),
with f_x_new_ the residual-only evaluation of the cost function at x_new_
(whose boolean return is again discarded by the source). -/
def stepRho {P R : ℕ} (f : Function P R) (ls : LinearSolver P) (s : State P R) : ℚ :=
  (vecNormSq s.error - vecNormSq (f.evalRes (stepXNew ls s)).1) /
    vecDot (stepDx ls s) (fun i => s.u * stepDx ls s i + s.g i)

/-- The step is accepted: the linear solve passed the degeneracy check, the
relative step size check did not fire, and rho > 0. -/
def stepAccepted {P R : ℕ} (prm : SolverParameters) (f : Function P R)
    (ls : LinearSolver P) (s : State P R) : Prop :=
  stepSolved ls s ∧ ¬ stepTooSmall prm ls s ∧ 0 < stepRho f ls s

instance {P R : ℕ} (prm : SolverParameters) (f : Function P R) (ls : LinearSolver P)
    (s : State P R) : Decidable (stepAccepted prm f ls s) :=
  inferInstanceAs (Decidable (_ ∧ _))

/-- The step is rejected: either the linear solve failed the degeneracy check,
or it passed, the relative step size check did not fire, and rho <= 0. -/
def stepRejected {P R : ℕ} (prm : SolverParameters) (f : Function P R)
    (ls : LinearSolver P) (s : State P R) : Prop :=
  ¬ stepSolved ls s ∨
    (stepSolved ls s ∧ ¬ stepTooSmall prm ls s ∧ stepRho f ls s ≤ 0)

instance {P R : ℕ} (prm : SolverParameters) (f : Function P R) (ls : LinearSolver P)
    (s : State P R) : Decidable (stepRejected prm f ls s) :=
  inferInstanceAs (Decidable (_ ∨ _))

/-- One body of the iteration loop of TinySolver::Solve (tiny_solver.h lines
209-246), entered with status RUNNING. -/
def iterate {P R : ℕ} (prm : SolverParameters) (f : Function P R)
    (ls : LinearSolver P) (s : State P R) : State P R :=
  if stepSolved ls s then
    if stepTooSmall prm ls s then
      { s with status := Status.RELATIVE_STEP_SIZE_TOO_SMALL }
    else if 0 < stepRho f ls s then
      let ur := Update prm f (stepXNew ls s)
      let tmp := 2 * stepRho f ls s - 1
      { x := stepXNew ls s
        error := ur.error
        jtj := ur.jtj
        g := ur.g
        u := s.u * max (1 / 3) (1 - tmp ^ 3)
        v := 2
        status := ur.status
        num_failed_linear_solves := s.num_failed_linear_solves }
    else
      { s with u := s.u * s.v, v := 2 * s.v }
  else
    { s with
      num_failed_linear_solves := s.num_failed_linear_solves + 1
      u := s.u * s.v
      v := 2 * s.v }

/-- The loop for (i = 0; status == RUNNING and i < max_iterations; ++i),
run with fuel = remaining iterations; also returns the number of executed
bodies, which is the final value of i. -/
def runLoop {P R : ℕ} (prm : SolverParameters) (f : Function P R)
    (ls : LinearSolver P) : ℕ → State P R → State P R × ℕ
  | 0, s => (s, 0)
  | n + 1, s =>
    if s.status = Status.RUNNING then
      let r := runLoop prm f ls n (iterate prm f ls s)
      (r.1, r.2 + 1)
    else (s, 0)

/-- TinySolver::Results.  The magnitudes are stored squared because the
embedding is over the rationals; the source stores error_.norm() and
g_.norm(), which carry exactly the same information. -/
structure Results where
  error_magnitude_sq : ℚ
  gradient_magnitude_sq : ℚ
  num_failed_linear_solves : ℤ
  iterations : ℕ
  status : Status

/-- TinySolver::Solve (tiny_solver.h lines 198-254).  The member
results.num_failed_linear_solves is never reset by Solve, so its value on
entry is the explicit argument nfIn; Initialize is a no-op resize.  Returns
the Results and the final parameter vector *x_and_min. -/
def Solve {P R : ℕ} (prm : SolverParameters) (f : Function P R) (ls : LinearSolver P)
    (x0 : Fin P → ℚ) (nfIn : ℤ) : Results × (Fin P → ℚ) :=
  let ur := Update prm f x0
  let u0 := prm.initial_scale_factor * diagMaxCoeff ur.jtj
  let s0 : State P R := ⟨x0, ur.error, ur.jtj, ur.g, u0, 2, ur.status, nfIn⟩
  let r := runLoop prm f ls prm.max_iterations s0
  let finalStatus :=
    if r.1.status = Status.RUNNING then Status.HIT_MAX_ITERATIONS else r.1.status
  (⟨vecNormSq r.1.error, vecNormSq r.1.g, r.1.num_failed_linear_solves, r.2, finalStatus⟩,
    r.1.x)

end TinySolver

/-- A first-order dual number with an N-dimensional derivative vector: the Jet
struct of ceres (value a, derivative vector v).  jet.h is not under src; the
claims below use only the record layout visible from tiny_solver.h and
dynamic_autodiff_cost_function.h, plus the spec-modelled arithmetic rules of
Expr.evalJet. -/
structure Jet (N : ℕ) where
  a : ℚ
  v : Fin N → ℚ

namespace DynamicAutoDiffCostFunction

/-- The CostFunctor template argument of DynamicAutoDiffCostFunction,
instantiated (as in Evaluate) at Jet<double, Stride>: one call receives the
jet parameters and either fails (returns false, buffers untrusted) or
produces the output jets.  The parameter blocks of the source are views into
one flat vector of num_parameters jets, and we index jacobian entries by the
flat parameter cursor; the block-local buffer entry
jacobians[i][k * size_i + j] is entry (k, cursor) for the cursor of block i,
offset j. -/
def CostFunctor (S P R : ℕ) := (Fin P → Jet S) → Option (Fin R → Jet S)

/-- The seeding of input_jets for one pass (lines 120-126 and 136-146):
input_jets[c].a = parameters[c]; v is zeroed, and for a cursor c in the
active slice [pass*S, min((pass+1)*S, P)) the slot c - pass*S is set to 1. -/
def seedJets (S : ℕ) {P : ℕ} (params : Fin P → ℚ) (pass : ℕ) : Fin P → Jet S :=
  fun c =>
    ⟨params c,
      fun d =>
        if pass * S ≤ c.val ∧ c.val < min ((pass + 1) * S) P ∧ d.val = c.val - pass * S
        then 1 else 0⟩

/-- The jacobian copy-out of one pass (lines 152-164): only entries whose
cursor lies in the active slice are written, from derivative slot
cursor - pass*S of the output jet. -/
def writeJac {S P R : ℕ} (pass : ℕ) (out : Fin R → Jet S) (jac : Fin R → Fin P → ℚ) :
    Fin R → Fin P → ℚ :=
  fun k c =>
    if h : pass * S ≤ c.val ∧ c.val < min ((pass + 1) * S) P then
      (out k).v ⟨c.val - pass * S, by
        have h2 : c.val < (pass + 1) * S := lt_of_lt_of_le h.2 (min_le_left _ _)
        have h3 : (pass + 1) * S = pass * S + S := by ring
        omega⟩
    else jac k c

/-- The outcome of DynamicAutoDiffCostFunction::Evaluate: the bool return
value, the caller's jacobian and residual buffers as left by the call, and
the number of functor invocations performed. -/
structure EvalResult (P R : ℕ) where
  ok : Bool
  jacobian : Fin R → Fin P → ℚ
  residuals : Fin R → ℚ
  calls : ℕ

/-- int(ceil(num_parameters / float(Stride))) of line 129, as the exact
ceiling of the division. -/
def numStrides (S P : ℕ) : ℕ := (P + S - 1) / S

/-- The pass loop of Evaluate (lines 130-173) over an explicit list of pass
indices, threading the caller's buffers: a pass seeds the jets, invokes the
functor (returning false aborts with the buffers as they are), writes the
active slice of the jacobian, and copies the residuals out only when
pass == num_strides - 1. -/
def runPasses {S P R : ℕ} (F : CostFunctor S P R) (params : Fin P → ℚ) (numS : ℕ) :
    List ℕ → (Fin R → Fin P → ℚ) → (Fin R → ℚ) → EvalResult P R
  | [], jac, res => ⟨true, jac, res, 0⟩
  | pass :: rest, jac, res =>
    match F (seedJets S params pass) with
    | none => ⟨false, jac, res, 1⟩
    | some out =>
      let r := runPasses F params numS rest (writeJac pass out jac)
        (if pass = numS - 1 then fun k => (out k).a else res)
      ⟨r.ok, r.jacobian, r.residuals, r.calls + 1⟩

/-- DynamicAutoDiffCostFunction::Evaluate (lines 98-175) on the jacobian
path: the strided pass loop over passes 0, ..., num_strides - 1. -/
def Evaluate (S : ℕ) {P R : ℕ} (F : CostFunctor S P R) (params : Fin P → ℚ)
    (jac0 : Fin R → Fin P → ℚ) (res0 : Fin R → ℚ) : EvalResult P R :=
  runPasses F params (numStrides S P) (List.range (numStrides S P)) jac0 res0

end DynamicAutoDiffCostFunction

/-- A cost functor body built from the arithmetic operations the dual-number
engine supports, as a term over the P parameters.  This captures the
requirement that a CostFunctor is one generic template evaluated at every
scalar type: the same expression drives the plain, the dual and the jet
evaluations below. -/
inductive Expr (P : ℕ) where
  | const : ℚ → Expr P
  | var : Fin P → Expr P
  | add : Expr P → Expr P → Expr P
  | sub : Expr P → Expr P → Expr P
  | mul : Expr P → Expr P → Expr P
  | neg : Expr P → Expr P
  | div : Expr P → Expr P → Expr P

/-- Plain scalar evaluation of an expression. -/
def Expr.eval {P : ℕ} (x : Fin P → ℚ) : Expr P → ℚ
  | .const q => q
  | .var i => x i
  | .add e₁ e₂ => e₁.eval x + e₂.eval x
  | .sub e₁ e₂ => e₁.eval x - e₂.eval x
  | .mul e₁ e₂ => e₁.eval x * e₂.eval x
  | .neg e => -(e.eval x)
  | .div e₁ e₂ => e₁.eval x / e₂.eval x

/-- Modelled from the spec: single-direction dual-number evaluation (value and
directional derivative along one seed vector s), following the representative
chain rules of spec section 4.1 — the dual-number engine of jet.h is not under
src.  Multiplication (a1,d1)*(a2,d2) = (a1 a2, a1 d2 + a2 d1); division by the
quotient rule; constants carry derivative 0 and variable i carries seed s i. -/
def Expr.evalDual {P : ℕ} (x s : Fin P → ℚ) : Expr P → ℚ × ℚ
  | .const q => (q, 0)
  | .var i => (x i, s i)
  | .add e₁ e₂ => (((e₁.evalDual x s).1 + (e₂.evalDual x s).1),
      (e₁.evalDual x s).2 + (e₂.evalDual x s).2)
  | .sub e₁ e₂ => (((e₁.evalDual x s).1 - (e₂.evalDual x s).1),
      (e₁.evalDual x s).2 - (e₂.evalDual x s).2)
  | .mul e₁ e₂ => (((e₁.evalDual x s).1 * (e₂.evalDual x s).1),
      (e₁.evalDual x s).1 * (e₂.evalDual x s).2 + (e₂.evalDual x s).1 * (e₁.evalDual x s).2)
  | .neg e => (-(e.evalDual x s).1, -(e.evalDual x s).2)
  | .div e₁ e₂ => (((e₁.evalDual x s).1 / (e₂.evalDual x s).1),
      ((e₁.evalDual x s).2 * (e₂.evalDual x s).1 - (e₁.evalDual x s).1 * (e₂.evalDual x s).2) /
        ((e₂.evalDual x s).1 * (e₂.evalDual x s).1))

/-- Modelled from the spec: jet evaluation of an expression with an
N-dimensional derivative vector, the same chain rules as Expr.evalDual applied
componentwise to the derivative vector (spec section 4.1; jet.h is not under
src). -/
def Expr.evalJet {P N : ℕ} (jets : Fin P → Jet N) : Expr P → Jet N
  | .const q => ⟨q, fun _ => 0⟩
  | .var i => jets i
  | .add e₁ e₂ => ⟨(e₁.evalJet jets).a + (e₂.evalJet jets).a,
      fun d => (e₁.evalJet jets).v d + (e₂.evalJet jets).v d⟩
  | .sub e₁ e₂ => ⟨(e₁.evalJet jets).a - (e₂.evalJet jets).a,
      fun d => (e₁.evalJet jets).v d - (e₂.evalJet jets).v d⟩
  | .mul e₁ e₂ => ⟨(e₁.evalJet jets).a * (e₂.evalJet jets).a,
      fun d => (e₁.evalJet jets).a * (e₂.evalJet jets).v d +
        (e₂.evalJet jets).a * (e₁.evalJet jets).v d⟩
  | .neg e => ⟨-(e.evalJet jets).a, fun d => -(e.evalJet jets).v d⟩
  | .div e₁ e₂ => ⟨(e₁.evalJet jets).a / (e₂.evalJet jets).a,
      fun d => ((e₁.evalJet jets).v d * (e₂.evalJet jets).a -
          (e₁.evalJet jets).a * (e₂.evalJet jets).v d) /
        ((e₂.evalJet jets).a * (e₂.evalJet jets).a)⟩

/-- The dynamic cost functor induced by a family of expressions (one per
residual), at jet width N: a template functor instantiated at Jet<double, N>.
It always succeeds. -/
def exprFunctor {P R : ℕ} (N : ℕ) (es : Fin R → Expr P) :
    DynamicAutoDiffCostFunction.CostFunctor N P R :=
  fun jets => some fun k => (es k).evalJet jets

namespace TinySolverFunctionAutoDiffAdapter

/-- The CostFunctor template argument of TinySolverFunctionAutoDiffAdapter:
one generic callable, used at plain doubles (when no jacobian is requested)
and at Jet<T, kNumParameters> (when one is).  A false return is modelled as
none, with the output buffers untrusted. -/
structure CostFunctor (P R : ℕ) where
  evalScalar : (Fin P → ℚ) → Option (Fin R → ℚ)
  evalJet : (Fin P → Jet P) → Option (Fin R → Jet P)

/-- The input seeding of operator() (tiny_solver.h lines 370-375):
jet_parameters[i].a = parameters[i], v = the i-th standard basis vector. -/
def seedJetParameters {P : ℕ} (params : Fin P → ℚ) : Fin P → Jet P :=
  fun i => ⟨params i, fun j => if j = i then 1 else 0⟩

/-- TinySolverFunctionAutoDiffAdapter::operator() (tiny_solver.h lines
355-401).  With a null jacobian pointer the cost functor is called directly
on plain scalars; otherwise the seeded jets are evaluated in a single call
and residuals[r] = jet_residuals[r].a while row r of the column-major R x P
jacobian (buffer entry p*R + r, modelled as entry (r, p)) is
jet_residuals[r].v. -/
def operator {P R : ℕ} (f : CostFunctor P R) (params : Fin P → ℚ)
    (wantJacobian : Bool) : Option ((Fin R → ℚ) × Option (Fin R → Fin P → ℚ)) :=
  if wantJacobian = false then
    match f.evalScalar params with
    | none => none
    | some residuals => some (residuals, none)
  else
    match f.evalJet (seedJetParameters params) with
    | none => none
    | some jetResiduals =>
      some (fun r => (jetResiduals r).a, some fun r p => (jetResiduals r).v p)

end TinySolverFunctionAutoDiffAdapter

/-! Concrete instances used by the counterexample and the witnesses. -/

/-- An exact 1 x 1 linear solver. -/
def cxLS : TinySolver.LinearSolver 1 := fun A b i => b i / A i i

/-- A linear solver returning garbage, so that the degeneracy check fails. -/
def junkLS : TinySolver.LinearSolver 1 := fun _ _ _ => 1

/-- A cost function with residual x, jacobian 1, whose residual-only
evaluation reports the constant 9/10 (a legitimate nonlinear callable as far
as the solver is concerned); it produces a gain ratio rho = 19/75 in (0, 1/2)
at cxAccState. -/
def cxFunction : TinySolver.Function 1 1 :=
  ⟨fun x => (fun _ => x 0, fun _ _ => 1, true), fun _ => (fun _ => 9 / 10, true)⟩

/-- The solver state from which cxFunction accepts a step with rho = 19/75. -/
def cxAccState : TinySolver.State 1 1 :=
  ⟨fun _ => 1, fun _ => -1, fun _ _ => 1, fun _ => -1, 1, 2, TinySolver.Status.RUNNING, 0⟩

/-- A cost function whose evaluations return false (and write residual 1,
jacobian 0). -/
def failFunction : TinySolver.Function 1 1 :=
  ⟨fun _ => (fun _ => 1, fun _ _ => 0, false), fun _ => (fun _ => 1, false)⟩

/-- A concrete autodiff functor for the adapter: residual x0 * x1 with its
jet transcript. -/
def cxAdapterFunctor : TinySolverFunctionAutoDiffAdapter.CostFunctor 2 1 :=
  ⟨fun x => some fun _ => x 0 * x 1,
   fun jets => some fun _ =>
     ⟨(jets 0).a * (jets 1).a,
      fun j => (jets 0).a * (jets 1).v j + (jets 1).a * (jets 0).v j⟩⟩

/-- The expression x0 * x1 as a one-residual dynamic cost functor. -/
def cxExprs : Fin 1 → Expr 2 := fun _ => Expr.mul (Expr.var 0) (Expr.var 1)

/-- Concrete parameters for the dynamic evaluations. -/
def cxParams : Fin 2 → ℚ := fun i => if i = 0 then 3 else 5

/-- A dynamic cost functor (Stride 1, two parameters, one residual) that
fails exactly on pass 1: the pass whose seeding puts derivative slot 0 of
jet 1 at 1. -/
def cxFailDyn : DynamicAutoDiffCostFunction.CostFunctor 1 2 1 :=
  fun jets => if (jets 1).v 0 = 1 then none else some fun _ => ⟨7, fun _ => 5⟩

/-- The per-pass outputs of cxFailDyn on its successful pass. -/
def cxDynOuts : ℕ → Fin 1 → Jet 1 := fun _ _ => ⟨7, fun _ => 5⟩

/-- Zeroed jacobian buffer for the concrete dynamic evaluations. -/
def cxJac0 : Fin 1 → Fin 2 → ℚ := fun _ _ => 0

/-- Zeroed residual buffer for the concrete dynamic evaluations. -/
def cxRes0 : Fin 1 → ℚ := fun _ => 0

/-- The output jets cxAdapterFunctor produces on the seeded input. -/
def cxAdapterJets : Fin 1 → Jet 2 := fun _ =>
  ⟨(TinySolverFunctionAutoDiffAdapter.seedJetParameters cxParams 0).a *
      (TinySolverFunctionAutoDiffAdapter.seedJetParameters cxParams 1).a,
   fun j =>
     (TinySolverFunctionAutoDiffAdapter.seedJetParameters cxParams 0).a *
         (TinySolverFunctionAutoDiffAdapter.seedJetParameters cxParams 1).v j +
       (TinySolverFunctionAutoDiffAdapter.seedJetParameters cxParams 1).a *
         (TinySolverFunctionAutoDiffAdapter.seedJetParameters cxParams 0).v j⟩

/-! Helper lemmas about TinySolver. -/

namespace TinySolver

theorem Update_status_eq {P R : ℕ} (prm : SolverParameters) (f : Function P R)
    (x : Fin P → ℚ) :
    (Update prm f x).status =
      (if maxAbsLt (Update prm f x).g prm.gradient_threshold then Status.GRADIENT_TOO_SMALL
       else if vecNormLt (Update prm f x).error prm.error_threshold then Status.ERROR_TOO_SMALL
       else Status.RUNNING) := rfl

theorem Update_status_ne_failed {P R : ℕ} (prm : SolverParameters) (f : Function P R)
    (x : Fin P → ℚ) :
    (Update prm f x).status ≠ Status.FAILED_TO_EVALUATE_COST_FUNCTION := by
  rw [Update_status_eq]
  split_ifs <;> simp

theorem iterate_status_ne_failed {P R : ℕ} (prm : SolverParameters) (f : Function P R)
    (ls : LinearSolver P) (s : State P R)
    (h : s.status ≠ Status.FAILED_TO_EVALUATE_COST_FUNCTION) :
    (iterate prm f ls s).status ≠ Status.FAILED_TO_EVALUATE_COST_FUNCTION := by
  rw [iterate]
  split_ifs
  · simp
  · exact Update_status_ne_failed prm f _
  · exact h
  · exact h

theorem runLoop_status_ne_failed {P R : ℕ} (prm : SolverParameters) (f : Function P R)
    (ls : LinearSolver P) :
    ∀ (n : ℕ) (s : State P R), s.status ≠ Status.FAILED_TO_EVALUATE_COST_FUNCTION →
      (runLoop prm f ls n s).1.status ≠ Status.FAILED_TO_EVALUATE_COST_FUNCTION
  | 0, s, h => h
  | n + 1, s, h => by
    rw [runLoop]
    split_ifs with hr
    · exact runLoop_status_ne_failed prm f ls n (iterate prm f ls s)
        (iterate_status_ne_failed prm f ls s h)
    · exact h

theorem Solve_status_ne_failed {P R : ℕ} (prm : SolverParameters) (f : Function P R)
    (ls : LinearSolver P) (x0 : Fin P → ℚ) (nfIn : ℤ) :
    (Solve prm f ls x0 nfIn).1.status ≠ Status.FAILED_TO_EVALUATE_COST_FUNCTION := by
  have h1 := runLoop_status_ne_failed prm f ls prm.max_iterations
    ⟨x0, (Update prm f x0).error, (Update prm f x0).jtj, (Update prm f x0).g,
      prm.initial_scale_factor * diagMaxCoeff (Update prm f x0).jtj, 2,
      (Update prm f x0).status, nfIn⟩ (Update_status_ne_failed prm f x0)
  show (if _ = Status.RUNNING then Status.HIT_MAX_ITERATIONS else _) ≠ _
  split_ifs
  · simp
  · exact h1

theorem runLoop_exit {P R : ℕ} (prm : SolverParameters) (f : Function P R)
    (ls : LinearSolver P) :
    ∀ (n : ℕ) (s : State P R), s.status ≠ Status.RUNNING →
      runLoop prm f ls n s = (s, 0)
  | 0, _, _ => rfl
  | n + 1, s, h => by rw [runLoop, if_neg h]

theorem Solve_status_of_update_terminal {P R : ℕ} (prm : SolverParameters)
    (f : Function P R) (ls : LinearSolver P) (x0 : Fin P → ℚ) (nfIn : ℤ)
    (h : (Update prm f x0).status ≠ Status.RUNNING) :
    (Solve prm f ls x0 nfIn).1.status = (Update prm f x0).status := by
  have hrun := runLoop_exit prm f ls prm.max_iterations
    ⟨x0, (Update prm f x0).error, (Update prm f x0).jtj, (Update prm f x0).g,
      prm.initial_scale_factor * diagMaxCoeff (Update prm f x0).jtj, 2,
      (Update prm f x0).status, nfIn⟩ h
  show (if (runLoop prm f ls prm.max_iterations
      ⟨x0, (Update prm f x0).error, (Update prm f x0).jtj, (Update prm f x0).g,
        prm.initial_scale_factor * diagMaxCoeff (Update prm f x0).jtj, 2,
        (Update prm f x0).status, nfIn⟩).1.status = Status.RUNNING
    then Status.HIT_MAX_ITERATIONS
    else (runLoop prm f ls prm.max_iterations
      ⟨x0, (Update prm f x0).error, (Update prm f x0).jtj, (Update prm f x0).g,
        prm.initial_scale_factor * diagMaxCoeff (Update prm f x0).jtj, 2,
        (Update prm f x0).status, nfIn⟩).1.status) = (Update prm f x0).status
  rw [hrun]
  split_ifs with hc
  · exact absurd hc h
  · rfl

theorem failFunction_update_status :
    (Update defaultParameters failFunction fun _ => 0).status =
      Status.GRADIENT_TOO_SMALL := by
  rw [Update_status_eq, if_pos]
  intro i
  norm_num [Update, failFunction, vecDot, defaultParameters]

theorem failFunction_solve_status :
    (Solve defaultParameters failFunction cxLS (fun _ => 0) 0).1.status =
      Status.GRADIENT_TOO_SMALL := by
  rw [Solve_status_of_update_terminal _ _ _ _ _ (by simp [failFunction_update_status]),
    failFunction_update_status]

theorem setNF_stepDx {P R : ℕ} (ls : LinearSolver P) (s : State P R) (m : ℤ) :
    stepDx ls { s with num_failed_linear_solves := m } = stepDx ls s := rfl

theorem setNF_stepSolved {P R : ℕ} (ls : LinearSolver P) (s : State P R) (m : ℤ) :
    stepSolved ls { s with num_failed_linear_solves := m } = stepSolved ls s := rfl

theorem setNF_stepTooSmall {P R : ℕ} (prm : SolverParameters) (ls : LinearSolver P)
    (s : State P R) (m : ℤ) :
    stepTooSmall prm ls { s with num_failed_linear_solves := m } = stepTooSmall prm ls s := rfl

theorem setNF_stepXNew {P R : ℕ} (ls : LinearSolver P) (s : State P R) (m : ℤ) :
    stepXNew ls { s with num_failed_linear_solves := m } = stepXNew ls s := rfl

theorem setNF_stepRho {P R : ℕ} (f : Function P R) (ls : LinearSolver P)
    (s : State P R) (m : ℤ) :
    stepRho f ls { s with num_failed_linear_solves := m } = stepRho f ls s := rfl

theorem iterate_setNF {P R : ℕ} (prm : SolverParameters) (f : Function P R)
    (ls : LinearSolver P) (s : State P R) (m : ℤ) :
    iterate prm f ls { s with num_failed_linear_solves := m }
      = { iterate prm f ls s with
          num_failed_linear_solves :=
            m + ((iterate prm f ls s).num_failed_linear_solves
              - s.num_failed_linear_solves) } := by
  rw [iterate, iterate]
  by_cases h1 : stepSolved ls s
  · have h1' : stepSolved ls { s with num_failed_linear_solves := m } := h1
    rw [if_pos h1, if_pos h1']
    by_cases h2 : stepTooSmall prm ls s
    · have h2' : stepTooSmall prm ls { s with num_failed_linear_solves := m } := h2
      rw [if_pos h2, if_pos h2']
      simp [State.mk.injEq]
    · have h2' : ¬ stepTooSmall prm ls { s with num_failed_linear_solves := m } := h2
      rw [if_neg h2, if_neg h2']
      by_cases h3 : 0 < stepRho f ls s
      · have h3' : 0 < stepRho f ls { s with num_failed_linear_solves := m } := h3
        rw [if_pos h3, if_pos h3']
        simp [State.mk.injEq, setNF_stepXNew, setNF_stepRho]
      · have h3' : ¬ 0 < stepRho f ls { s with num_failed_linear_solves := m } := h3
        rw [if_neg h3, if_neg h3']
        simp [State.mk.injEq]
  · have h1' : ¬ stepSolved ls { s with num_failed_linear_solves := m } := h1
    rw [if_neg h1, if_neg h1']
    simp [State.mk.injEq]

theorem runLoop_setNF {P R : ℕ} (prm : SolverParameters) (f : Function P R)
    (ls : LinearSolver P) :
    ∀ (n : ℕ) (s : State P R) (m : ℤ),
      runLoop prm f ls n { s with num_failed_linear_solves := m }
        = ({ (runLoop prm f ls n s).1 with
             num_failed_linear_solves :=
               m + ((runLoop prm f ls n s).1.num_failed_linear_solves
                 - s.num_failed_linear_solves) },
           (runLoop prm f ls n s).2)
  | 0, s, m => by
    simp [runLoop, State.mk.injEq]
  | n + 1, s, m => by
    rw [runLoop, runLoop]
    by_cases h : s.status = Status.RUNNING
    · have h' : ({ s with num_failed_linear_solves := m } : State P R).status
          = Status.RUNNING := h
      rw [if_pos h, if_pos h']
      rw [iterate_setNF prm f ls s m]
      rw [runLoop_setNF prm f ls n (iterate prm f ls s)
        (m + ((iterate prm f ls s).num_failed_linear_solves - s.num_failed_linear_solves))]
      simp [State.mk.injEq]
      omega
    · have h' : ¬ ({ s with num_failed_linear_solves := m } : State P R).status
          = Status.RUNNING := h
      rw [if_neg h, if_neg h']
      simp [State.mk.injEq]

end TinySolver

namespace TinySolver

/-- Claim C1 (code_bug): the spec requires that a false return from the cost
function aborts the evaluation and that Solve reports
FAILED_TO_EVALUATE_COST_FUNCTION.  The code ignores the boolean return of
both cost-function calls (the TODOs at tiny_solver.h lines 182 and 225) and
never assigns that status: concretely, a cost function that always returns
false still drives Solve to GRADIENT_TOO_SMALL, and no execution of Solve
whatsoever can return FAILED_TO_EVALUATE_COST_FUNCTION. -/
theorem Solve_ignores_cost_function_failure :
    (Solve defaultParameters failFunction cxLS (fun _ => 0) 0).1.status
        = Status.GRADIENT_TOO_SMALL ∧
    Status.GRADIENT_TOO_SMALL ≠ Status.FAILED_TO_EVALUATE_COST_FUNCTION ∧
    ∀ (P R : ℕ) (prm : SolverParameters) (f : Function P R) (ls : LinearSolver P)
      (x0 : Fin P → ℚ) (nfIn : ℤ),
      (Solve prm f ls x0 nfIn).1.status ≠ Status.FAILED_TO_EVALUATE_COST_FUNCTION :=
  ⟨failFunction_solve_status, by simp,
   fun _ _ prm f ls x0 nfIn => Solve_status_ne_failed prm f ls x0 nfIn⟩

/-- Claim C2, counterexample: at the concrete state cxAccState the step is
accepted with gain ratio rho = 19/75, which lies in (0, 1/2), and the new
damping u strictly exceeds the old one, refuting the claim that accepted
steps always satisfy u_new <= u_old. -/
theorem accepted_step_can_increase_damping :
    stepAccepted defaultParameters cxFunction cxLS cxAccState ∧
    cxAccState.u < (iterate defaultParameters cxFunction cxLS cxAccState).u := by
  have hs : stepSolved cxLS cxAccState := by
    norm_num [stepSolved, eigenIsApprox, vecNormSq, vecDot, matVecMul,
      stepDx, cxLS, jtjAugmented, cxAccState, dummyPrecision]
  have hn : ¬ stepTooSmall defaultParameters cxLS cxAccState := by
    norm_num [stepTooSmall, stepNormLt, vecNormSq, vecDot, stepDx, cxLS,
      jtjAugmented, cxAccState, defaultParameters]
  have hrho : stepRho cxFunction cxLS cxAccState = 19 / 75 := by
    norm_num [stepRho, vecNormSq, vecDot, stepDx, cxLS,
      jtjAugmented, cxAccState, cxFunction, stepXNew]
  have hr : 0 < stepRho cxFunction cxLS cxAccState := by rw [hrho]; norm_num
  refine ⟨⟨hs, hn, hr⟩, ?_⟩
  have hu : (iterate defaultParameters cxFunction cxLS cxAccState).u
      = cxAccState.u * max (1 / 3)
          (1 - (2 * stepRho cxFunction cxLS cxAccState - 1) ^ 3) := by
    rw [iterate, if_pos hs, if_neg hn, if_pos hr]
  rw [hu, hrho]
  have hmax : max ((1 : ℚ) / 3) (1 - (2 * (19 / 75) - 1) ^ 3)
      = 1 - (2 * (19 / 75 : ℚ) - 1) ^ 3 := max_eq_right (by norm_num)
  rw [hmax]
  norm_num [cxAccState]

/-- Claim C2 (amended): for an iteration with damping u > 0 and escalation
multiplier v >= 2, an accepted step (rho > 0) sets
u_new = u * max(1/3, 1 - (2 rho - 1)^3), which lies in [u/3, 2u) and
satisfies u_new <= u exactly when rho >= 1/2 (for 0 < rho < 1/2 the damping
increases), and resets v to 2; a rejected step sets u_new = u * v > u and
doubles v. -/
theorem damping_update_rule {P R : ℕ} (prm : SolverParameters) (f : Function P R)
    (ls : LinearSolver P) (s : State P R) (hu : 0 < s.u) (hv : 2 ≤ s.v) :
    (stepAccepted prm f ls s →
      (iterate prm f ls s).u = s.u * max (1 / 3) (1 - (2 * stepRho f ls s - 1) ^ 3) ∧
      s.u / 3 ≤ (iterate prm f ls s).u ∧
      (iterate prm f ls s).u < 2 * s.u ∧
      (1 / 2 ≤ stepRho f ls s → (iterate prm f ls s).u ≤ s.u) ∧
      (iterate prm f ls s).v = 2) ∧
    (stepRejected prm f ls s →
      (iterate prm f ls s).u = s.u * s.v ∧
      s.u < (iterate prm f ls s).u ∧
      (iterate prm f ls s).v = 2 * s.v) := by
  constructor
  · rintro ⟨h1, h2, h3⟩
    have hu' : (iterate prm f ls s).u
        = s.u * max (1 / 3) (1 - (2 * stepRho f ls s - 1) ^ 3) := by
      rw [iterate, if_pos h1, if_neg h2, if_pos h3]
    have hv' : (iterate prm f ls s).v = 2 := by
      rw [iterate, if_pos h1, if_neg h2, if_pos h3]
    set ρ := stepRho f ls s with hrho
    have ht1 : 0 < (2 * ρ - 1) + 1 := by linarith
    have ht2 : 0 < (2 * ρ - 1) ^ 2 - (2 * ρ - 1) + 1 := by
      nlinarith [sq_nonneg (2 * (2 * ρ - 1) - 1)]
    have ht3 : -1 < (2 * ρ - 1) ^ 3 := by nlinarith [mul_pos ht1 ht2]
    have hM2 : max (1 / 3 : ℚ) (1 - (2 * ρ - 1) ^ 3) < 2 :=
      max_lt (by norm_num) (by linarith)
    have hM13 : (1 / 3 : ℚ) ≤ max (1 / 3 : ℚ) (1 - (2 * ρ - 1) ^ 3) := le_max_left _ _
    refine ⟨hu', ?_, ?_, ?_, hv'⟩
    · rw [hu']
      calc s.u / 3 = s.u * (1 / 3) := by ring
        _ ≤ s.u * max (1 / 3) (1 - (2 * ρ - 1) ^ 3) :=
          mul_le_mul_of_nonneg_left hM13 hu.le
    · rw [hu']
      calc s.u * max (1 / 3) (1 - (2 * ρ - 1) ^ 3) < s.u * 2 :=
          mul_lt_mul_of_pos_left hM2 hu
        _ = 2 * s.u := by ring
    · intro hhalf
      have ht0 : 0 ≤ (2 * ρ - 1) ^ 3 := pow_nonneg (by linarith) 3
      have hM1 : max (1 / 3 : ℚ) (1 - (2 * ρ - 1) ^ 3) ≤ 1 :=
        max_le (by norm_num) (by linarith)
      rw [hu']
      exact mul_le_of_le_one_right hu.le hM1
  · have hv1 : 1 < s.v := by linarith
    have huv : s.u < s.u * s.v := by
      have := mul_lt_mul_of_pos_left hv1 hu
      simpa using this
    rintro (h1 | ⟨h1, h2, h3⟩)
    · rw [iterate, if_neg h1]
      exact ⟨rfl, huv, rfl⟩
    · rw [iterate, if_pos h1, if_neg h2, if_neg (not_lt.mpr h3)]
      exact ⟨rfl, huv, rfl⟩

/-- Witness for the amended claim C2, at a concrete rejected iteration (the
garbage linear solver fails the degeneracy check). -/
theorem damping_update_rule_witness :
    (iterate defaultParameters cxFunction junkLS cxAccState).u
        = cxAccState.u * cxAccState.v ∧
    cxAccState.u < (iterate defaultParameters cxFunction junkLS cxAccState).u ∧
    (iterate defaultParameters cxFunction junkLS cxAccState).v = 2 * cxAccState.v :=
  (damping_update_rule defaultParameters cxFunction junkLS cxAccState
      (by norm_num [cxAccState]) (by norm_num [cxAccState])).2
    (Or.inl (by norm_num [stepSolved, eigenIsApprox, vecNormSq, vecDot, matVecMul,
      stepDx, junkLS, jtjAugmented, cxAccState, dummyPrecision]))

/-- Claim C3 (confirmed): an iteration whose step is not accepted — a failed
or degenerate linear solve, a rejection because rho <= 0, or the
RELATIVE_STEP_SIZE_TOO_SMALL early exit — leaves the parameter vector x
exactly as it was; x is mutated only on accepted steps.  The remaining early
exit (HIT_MAX_ITERATIONS) runs no loop body at all, and outside the loop
Solve never writes x. -/
theorem x_mutated_only_on_accepted_step {P R : ℕ} (prm : SolverParameters)
    (f : Function P R) (ls : LinearSolver P) (s : State P R)
    (h : ¬ stepAccepted prm f ls s) :
    (iterate prm f ls s).x = s.x := by
  rw [iterate]
  split_ifs with h1 h2 h3
  · rfl
  · exact absurd ⟨h1, h2, h3⟩ h
  · rfl
  · rfl

/-- Witness for claim C3 at a concrete rejected iteration. -/
theorem x_mutated_only_on_accepted_step_witness :
    (iterate defaultParameters cxFunction junkLS cxAccState).x = cxAccState.x :=
  x_mutated_only_on_accepted_step defaultParameters cxFunction junkLS cxAccState
    (fun h => absurd h.1 (by norm_num [stepSolved, eigenIsApprox, vecNormSq, vecDot,
      matVecMul, stepDx, junkLS, jtjAugmented, cxAccState, dummyPrecision]))

/-- Claim C6 (confirmed): Update computes error = -r, jtj = J^T J and
g = J^T error from a fresh evaluation at the current x, returns
GRADIENT_TOO_SMALL exactly when max of the absolute gradient entries is below
gradient_threshold, otherwise ERROR_TOO_SMALL exactly when the error norm is
below error_threshold (the comparison embedded by its exact squared
equivalent vecNormLt), otherwise RUNNING — the gradient check taking
precedence. -/
theorem Update_characterization {P R : ℕ} (prm : SolverParameters) (f : Function P R)
    (x : Fin P → ℚ) :
    (∀ k, (Update prm f x).error k = -((f.evalJac x).1 k)) ∧
    (∀ p q, (Update prm f x).jtj p q = ∑ k, (f.evalJac x).2.1 k p * (f.evalJac x).2.1 k q) ∧
    (∀ p, (Update prm f x).g p = ∑ k, (f.evalJac x).2.1 k p * (Update prm f x).error k) ∧
    ((Update prm f x).status = Status.GRADIENT_TOO_SMALL ↔
      maxAbsLt (Update prm f x).g prm.gradient_threshold) ∧
    (¬ maxAbsLt (Update prm f x).g prm.gradient_threshold →
      ((Update prm f x).status = Status.ERROR_TOO_SMALL ↔
        vecNormLt (Update prm f x).error prm.error_threshold)) ∧
    (¬ maxAbsLt (Update prm f x).g prm.gradient_threshold →
      ¬ vecNormLt (Update prm f x).error prm.error_threshold →
      (Update prm f x).status = Status.RUNNING) := by
  refine ⟨fun k => rfl, fun p q => rfl, fun p => rfl, ?_, ?_, ?_⟩
  · rw [Update_status_eq]
    split_ifs with hg he <;> simp_all
  · intro hg
    rw [Update_status_eq]
    split_ifs <;> simp_all
  · intro hg he
    rw [Update_status_eq]
    split_ifs <;> simp_all

/-- Witness for claim C6: a concrete Update whose gradient is identically
zero reports GRADIENT_TOO_SMALL. -/
theorem Update_characterization_witness :
    (Update defaultParameters failFunction fun _ => 0).status =
      Status.GRADIENT_TOO_SMALL :=
  ((Update_characterization defaultParameters failFunction fun _ => 0).2.2.2.1).mpr
    (by intro i; norm_num [Update, failFunction, vecDot, defaultParameters])

/-- Claim C7 (confirmed): an iteration whose damped solve fails the
degeneracy check increments the failed-linear-solve counter, escalates
u to u * v and doubles v, leaves x untouched, and keeps the status unchanged
(RUNNING), so solving continues and the failure is never terminal — it is
bounded only by the loop bound max_iterations. -/
theorem failed_linear_solve_escalates {P R : ℕ} (prm : SolverParameters)
    (f : Function P R) (ls : LinearSolver P) (s : State P R)
    (h : ¬ stepSolved ls s) :
    (iterate prm f ls s).num_failed_linear_solves = s.num_failed_linear_solves + 1 ∧
    (iterate prm f ls s).u = s.u * s.v ∧
    (iterate prm f ls s).v = 2 * s.v ∧
    (iterate prm f ls s).x = s.x ∧
    (iterate prm f ls s).status = s.status := by
  rw [iterate, if_neg h]
  exact ⟨rfl, rfl, rfl, rfl, rfl⟩

/-- Witness for claim C7 at a concrete failed linear solve. -/
theorem failed_linear_solve_escalates_witness :
    (iterate defaultParameters cxFunction junkLS cxAccState).num_failed_linear_solves
      = cxAccState.num_failed_linear_solves + 1 :=
  (failed_linear_solve_escalates defaultParameters cxFunction junkLS cxAccState
    (by norm_num [stepSolved, eigenIsApprox, vecNormSq, vecDot, matVecMul,
      stepDx, junkLS, jtjAugmented, cxAccState, dummyPrecision])).1

/-- Claim C10 (confirmed): Solve never resets num_failed_linear_solves; the
returned count is the value on entry plus this call's failed solves, so a
second Solve on the same instance reports the accumulated total of both
calls. -/
theorem num_failed_linear_solves_accumulates {P R : ℕ} (prm : SolverParameters)
    (f : Function P R) (ls : LinearSolver P) (x0 x1 : Fin P → ℚ) :
    (∀ nfIn : ℤ, (Solve prm f ls x0 nfIn).1.num_failed_linear_solves
        = nfIn + (Solve prm f ls x0 0).1.num_failed_linear_solves) ∧
    ∀ n0 : ℤ,
      (Solve prm f ls x1
          ((Solve prm f ls x0 n0).1.num_failed_linear_solves)).1.num_failed_linear_solves
        = n0 + (Solve prm f ls x0 0).1.num_failed_linear_solves
            + (Solve prm f ls x1 0).1.num_failed_linear_solves := by
  have key : ∀ (x : Fin P → ℚ) (nfIn : ℤ),
      (Solve prm f ls x nfIn).1.num_failed_linear_solves
        = nfIn + (Solve prm f ls x 0).1.num_failed_linear_solves := by
    intro x nfIn
    show (runLoop prm f ls prm.max_iterations
        { (⟨x, (Update prm f x).error, (Update prm f x).jtj, (Update prm f x).g,
            prm.initial_scale_factor * diagMaxCoeff (Update prm f x).jtj, 2,
            (Update prm f x).status, 0⟩ : State P R) with
          num_failed_linear_solves := nfIn }).1.num_failed_linear_solves
      = nfIn + (runLoop prm f ls prm.max_iterations
          (⟨x, (Update prm f x).error, (Update prm f x).jtj, (Update prm f x).g,
            prm.initial_scale_factor * diagMaxCoeff (Update prm f x).jtj, 2,
            (Update prm f x).status, 0⟩ : State P R)).1.num_failed_linear_solves
    rw [runLoop_setNF]
    dsimp only
    omega
  exact ⟨key x0, fun n0 => by rw [key x1, key x0]⟩

end TinySolver

/-! Helper lemmas about the strided dynamic autodiff evaluation. -/

namespace DynamicAutoDiffCostFunction

theorem runPasses_nil {S P R : ℕ} (F : CostFunctor S P R) (params : Fin P → ℚ)
    (numS : ℕ) (jac : Fin R → Fin P → ℚ) (res : Fin R → ℚ) :
    runPasses F params numS [] jac res = ⟨true, jac, res, 0⟩ := rfl

theorem runPasses_cons {S P R : ℕ} (F : CostFunctor S P R) (params : Fin P → ℚ)
    (numS pass : ℕ) (rest : List ℕ) (jac : Fin R → Fin P → ℚ) (res : Fin R → ℚ)
    (out : Fin R → Jet S) (hF : F (seedJets S params pass) = some out) :
    runPasses F params numS (pass :: rest) jac res
      = ⟨(runPasses F params numS rest (writeJac pass out jac)
            (if pass = numS - 1 then fun k => (out k).a else res)).ok,
         (runPasses F params numS rest (writeJac pass out jac)
            (if pass = numS - 1 then fun k => (out k).a else res)).jacobian,
         (runPasses F params numS rest (writeJac pass out jac)
            (if pass = numS - 1 then fun k => (out k).a else res)).residuals,
         (runPasses F params numS rest (writeJac pass out jac)
            (if pass = numS - 1 then fun k => (out k).a else res)).calls + 1⟩ := by
  rw [runPasses, hF]

theorem runPasses_cons_fail {S P R : ℕ} (F : CostFunctor S P R) (params : Fin P → ℚ)
    (numS pass : ℕ) (rest : List ℕ) (jac : Fin R → Fin P → ℚ) (res : Fin R → ℚ)
    (hF : F (seedJets S params pass) = none) :
    runPasses F params numS (pass :: rest) jac res = ⟨false, jac, res, 1⟩ := by
  rw [runPasses, hF]

theorem runPasses_success {S P R : ℕ} (hS : 0 < S) (F : CostFunctor S P R)
    (params : Fin P → ℚ) (numS : ℕ) (outs : ℕ → Fin R → Jet S) :
    ∀ (n t : ℕ) (jac : Fin R → Fin P → ℚ) (res : Fin R → ℚ),
      (∀ p, t ≤ p → p < t + n → F (seedJets S params p) = some (outs p)) →
      runPasses F params numS (List.range' t n) jac res
        = ⟨true,
           fun k c =>
             if t * S ≤ c.val ∧ c.val < (t + n) * S then
               (outs (c.val / S) k).v ⟨c.val % S, Nat.mod_lt _ hS⟩
             else jac k c,
           (if t ≤ numS - 1 ∧ numS - 1 < t + n then (fun k => (outs (numS - 1) k).a)
            else res),
           n⟩ := by
  intro n
  induction n with
  | zero =>
    intro t jac res _
    rw [show List.range' t 0 = [] from rfl, runPasses_nil]
    rw [EvalResult.mk.injEq]
    refine ⟨rfl, ?_, ?_, rfl⟩
    · funext k c
      have e0 : (t + 0) * S = t * S := by ring
      rw [if_neg]
      omega
    · rw [if_neg]
      omega
  | succ n ih =>
    intro t jac res hsucc
    rw [List.range'_succ]
    rw [runPasses_cons F params numS t _ _ _ (outs t) (hsucc t le_rfl (by omega))]
    rw [ih (t + 1) (writeJac t (outs t) jac)
      (if t = numS - 1 then fun k => (outs t k).a else res)
      (fun p hp1 hp2 => hsucc p (by omega) (by omega))]
    rw [EvalResult.mk.injEq]
    dsimp only
    have e1 : (t + 1) * S = t * S + S := by ring
    have e2 : (t + 1 + n) * S = t * S + S + n * S := by ring
    have e3 : (t + (n + 1)) * S = t * S + S + n * S := by ring
    refine ⟨rfl, ?_, ?_, rfl⟩
    · funext k c
      have hcP : c.val < P := c.isLt
      have hminle : min ((t + 1) * S) P ≤ (t + 1) * S := min_le_left _ _
      have hminP : min ((t + 1) * S) P ≤ P := min_le_right _ _
      by_cases hreg1 : (t + 1) * S ≤ c.val ∧ c.val < (t + 1 + n) * S
      · rw [if_pos hreg1, if_pos (by omega)]
      · rw [if_neg hreg1]
        by_cases hreg2 : t * S ≤ c.val ∧ c.val < (t + 1) * S
        · rw [writeJac, dif_pos ?hw]
          case hw =>
            refine ⟨hreg2.1, ?_⟩
            rw [lt_min_iff]
            exact ⟨hreg2.2, hcP⟩
          have hdiv : c.val / S = t :=
            Nat.div_eq_of_lt_le hreg2.1 hreg2.2
          have hmod := Nat.div_add_mod c.val S
          rw [hdiv] at hmod
          have e4 : S * t = t * S := by ring
          rw [if_pos (by omega), hdiv]
          congr 1
          apply Fin.ext
          show c.val - t * S = c.val % S
          omega
        · rw [writeJac, dif_neg ?hw2]
          case hw2 =>
            rw [not_and_or] at hreg2 ⊢
            rcases hreg2 with h | h
            · exact Or.inl h
            · refine Or.inr ?_
              rw [lt_min_iff, not_and_or]
              exact Or.inl (by omega)
          rw [if_neg (by omega)]
    · by_cases hr1 : t + 1 ≤ numS - 1 ∧ numS - 1 < t + 1 + n
      · rw [if_pos hr1, if_pos (by omega)]
      · rw [if_neg hr1]
        by_cases hr2 : t = numS - 1
        · rw [if_pos hr2, if_pos (by omega), hr2]
        · rw [if_neg hr2, if_neg (by omega)]

theorem numStrides_bounds (S P : ℕ) (hS : 0 < S) (hP : 0 < P) :
    P ≤ numStrides S P * S ∧ numStrides S P * S < P + S := by
  have hdm := Nat.div_add_mod (P + S - 1) S
  have hlt : (P + S - 1) % S < S := Nat.mod_lt _ hS
  have e : S * ((P + S - 1) / S) = ((P + S - 1) / S) * S := by ring
  unfold numStrides
  omega

theorem numStrides_pos (S P : ℕ) (hS : 0 < S) (hP : 0 < P) : 0 < numStrides S P := by
  rcases numStrides_bounds S P hS hP with ⟨h1, _⟩
  by_contra h
  push_neg at h
  interval_cases hn : numStrides S P
  omega

theorem Evaluate_success_spec (S : ℕ) {P R : ℕ} (hS : 0 < S) (hP : 0 < P)
    (F : CostFunctor S P R) (params : Fin P → ℚ) (jac0 : Fin R → Fin P → ℚ)
    (res0 : Fin R → ℚ) (outs : ℕ → Fin R → Jet S)
    (hsucc : ∀ p, p < numStrides S P → F (seedJets S params p) = some (outs p)) :
    Evaluate S F params jac0 res0
      = ⟨true,
         fun k c => (outs (c.val / S) k).v ⟨c.val % S, Nat.mod_lt _ hS⟩,
         fun k => (outs (numStrides S P - 1) k).a,
         numStrides S P⟩ := by
  rcases numStrides_bounds S P hS hP with ⟨hb1, hb2⟩
  have hpos := numStrides_pos S P hS hP
  rw [Evaluate, List.range_eq_range']
  rw [runPasses_success hS F params (numStrides S P) outs (numStrides S P) 0 jac0 res0
    (fun p _ hp2 => hsucc p (by omega))]
  rw [EvalResult.mk.injEq]
  refine ⟨rfl, ?_, ?_, rfl⟩
  · funext k c
    have hcP : c.val < P := c.isLt
    have e0 : (0 + numStrides S P) * S = numStrides S P * S := by ring
    rw [if_pos (by omega)]
  · rw [if_pos (by omega)]

theorem runPasses_fail {S P R : ℕ} (hS : 0 < S) (F : CostFunctor S P R)
    (params : Fin P → ℚ) (numS : ℕ) (outs : ℕ → Fin R → Jet S) (tf : ℕ)
    (htf : tf ≤ numS - 1)
    (hsucc : ∀ p, p < tf → F (seedJets S params p) = some (outs p))
    (hfail : F (seedJets S params tf) = none) :
    ∀ (n t : ℕ) (jac : Fin R → Fin P → ℚ) (res : Fin R → ℚ),
      t ≤ tf → tf < t + n →
      runPasses F params numS (List.range' t n) jac res
        = ⟨false,
           fun k c =>
             if t * S ≤ c.val ∧ c.val < tf * S then
               (outs (c.val / S) k).v ⟨c.val % S, Nat.mod_lt _ hS⟩
             else jac k c,
           res,
           tf - t + 1⟩ := by
  intro n
  induction n with
  | zero =>
    intro t jac res ht1 ht2
    omega
  | succ n ih =>
    intro t jac res ht1 ht2
    rw [List.range'_succ]
    by_cases heq : t = tf
    · subst heq
      rw [runPasses_cons_fail F params numS t _ _ _ hfail]
      rw [EvalResult.mk.injEq]
      refine ⟨rfl, ?_, rfl, by omega⟩
      funext k c
      rw [if_neg]
      omega
    · rw [runPasses_cons F params numS t _ _ _ (outs t) (hsucc t (by omega))]
      rw [if_neg (by omega : ¬ t = numS - 1)]
      rw [ih (t + 1) (writeJac t (outs t) jac) res (by omega) (by omega)]
      rw [EvalResult.mk.injEq]
      dsimp only
      have e1 : (t + 1) * S = t * S + S := by ring
      refine ⟨rfl, ?_, rfl, by omega⟩
      funext k c
      have hcP : c.val < P := c.isLt
      have hminle : min ((t + 1) * S) P ≤ (t + 1) * S := min_le_left _ _
      by_cases hreg1 : (t + 1) * S ≤ c.val ∧ c.val < tf * S
      · rw [if_pos hreg1, if_pos (by omega)]
      · rw [if_neg hreg1]
        by_cases hreg2 : t * S ≤ c.val ∧ c.val < (t + 1) * S
        · rw [writeJac, dif_pos ?hw]
          case hw =>
            refine ⟨hreg2.1, ?_⟩
            rw [lt_min_iff]
            exact ⟨hreg2.2, hcP⟩
          have hdiv : c.val / S = t :=
            Nat.div_eq_of_lt_le hreg2.1 hreg2.2
          have hmod := Nat.div_add_mod c.val S
          rw [hdiv] at hmod
          have e4 : S * t = t * S := by ring
          have htS : c.val < tf * S := by
            have h5 : t + 1 ≤ tf := by omega
            have h6 : (t + 1) * S ≤ tf * S := Nat.mul_le_mul_right S h5
            omega
          rw [if_pos (by omega), hdiv]
          congr 1
          apply Fin.ext
          show c.val - t * S = c.val % S
          omega
        · rw [writeJac, dif_neg ?hw2]
          case hw2 =>
            rw [not_and_or] at hreg2 ⊢
            rcases hreg2 with h | h
            · exact Or.inl h
            · refine Or.inr ?_
              rw [lt_min_iff, not_and_or]
              exact Or.inl (by omega)
          rw [if_neg (by omega)]

theorem Evaluate_fail_spec (S : ℕ) {P R : ℕ} (hS : 0 < S) (hP : 0 < P)
    (F : CostFunctor S P R) (params : Fin P → ℚ) (jac0 : Fin R → Fin P → ℚ)
    (res0 : Fin R → ℚ) (outs : ℕ → Fin R → Jet S) (tf : ℕ)
    (htf : tf < numStrides S P)
    (hsucc : ∀ p, p < tf → F (seedJets S params p) = some (outs p))
    (hfail : F (seedJets S params tf) = none) :
    Evaluate S F params jac0 res0
      = ⟨false,
         fun k c =>
           if c.val < tf * S then
             (outs (c.val / S) k).v ⟨c.val % S, Nat.mod_lt _ hS⟩
           else jac0 k c,
         res0,
         tf + 1⟩ := by
  have hpos := numStrides_pos S P hS hP
  rw [Evaluate, List.range_eq_range']
  rw [runPasses_fail hS F params (numStrides S P) outs tf (by omega) hsucc hfail
    (numStrides S P) 0 jac0 res0 (by omega) (by omega)]
  rw [EvalResult.mk.injEq]
  refine ⟨rfl, ?_, rfl, by omega⟩
  funext k c
  by_cases hc : c.val < tf * S
  · rw [if_pos (by omega), if_pos hc]
  · rw [if_neg (by omega), if_neg hc]

end DynamicAutoDiffCostFunction

/-! Chain-rule lemmas for the expression functors. -/

theorem Expr.evalJet_a {P N : ℕ} (jets : Fin P → Jet N) (e : Expr P) :
    (Expr.evalJet jets e).a = Expr.eval (fun i => (jets i).a) e := by
  induction e with
  | const q => rfl
  | var i => rfl
  | add e₁ e₂ ih₁ ih₂ => simp [Expr.evalJet, Expr.eval, ih₁, ih₂]
  | sub e₁ e₂ ih₁ ih₂ => simp [Expr.evalJet, Expr.eval, ih₁, ih₂]
  | mul e₁ e₂ ih₁ ih₂ => simp [Expr.evalJet, Expr.eval, ih₁, ih₂]
  | neg e ih => simp [Expr.evalJet, Expr.eval, ih]
  | div e₁ e₂ ih₁ ih₂ => simp [Expr.evalJet, Expr.eval, ih₁, ih₂]

theorem Expr.evalDual_fst {P : ℕ} (x s : Fin P → ℚ) (e : Expr P) :
    (Expr.evalDual x s e).1 = Expr.eval x e := by
  induction e with
  | const q => rfl
  | var i => rfl
  | add e₁ e₂ ih₁ ih₂ => simp [Expr.evalDual, Expr.eval, ih₁, ih₂]
  | sub e₁ e₂ ih₁ ih₂ => simp [Expr.evalDual, Expr.eval, ih₁, ih₂]
  | mul e₁ e₂ ih₁ ih₂ => simp [Expr.evalDual, Expr.eval, ih₁, ih₂]
  | neg e ih => simp [Expr.evalDual, Expr.eval, ih]
  | div e₁ e₂ ih₁ ih₂ => simp [Expr.evalDual, Expr.eval, ih₁, ih₂]

theorem Expr.evalJet_v {P N : ℕ} (jets : Fin P → Jet N) (d : Fin N) (e : Expr P) :
    (Expr.evalJet jets e).v d
      = (Expr.evalDual (fun i => (jets i).a) (fun i => (jets i).v d) e).2 := by
  induction e with
  | const q => rfl
  | var i => rfl
  | add e₁ e₂ ih₁ ih₂ => simp [Expr.evalJet, Expr.evalDual, ih₁, ih₂]
  | sub e₁ e₂ ih₁ ih₂ => simp [Expr.evalJet, Expr.evalDual, ih₁, ih₂]
  | mul e₁ e₂ ih₁ ih₂ =>
    simp [Expr.evalJet, Expr.evalDual, ih₁, ih₂, Expr.evalJet_a, Expr.evalDual_fst]
  | neg e ih => simp [Expr.evalJet, Expr.evalDual, ih]
  | div e₁ e₂ ih₁ ih₂ =>
    simp [Expr.evalJet, Expr.evalDual, ih₁, ih₂, Expr.evalJet_a, Expr.evalDual_fst]

namespace DynamicAutoDiffCostFunction

theorem seedJets_basis {S P : ℕ} (hS : 0 < S) (params : Fin P → ℚ) (c : Fin P)
    (i : Fin P) :
    (seedJets S params (c.val / S) i).v ⟨c.val % S, Nat.mod_lt _ hS⟩
      = if i = c then 1 else 0 := by
  simp only [seedJets]
  have hdm := Nat.div_add_mod c.val S
  have hms : c.val % S < S := Nat.mod_lt _ hS
  have e1 : (c.val / S + 1) * S = c.val / S * S + S := by ring
  have e2 : S * (c.val / S) = c.val / S * S := by ring
  have hiP : i.val < P := i.isLt
  have hcP : c.val < P := c.isLt
  by_cases h : i = c
  · subst h
    rw [if_pos, if_pos rfl]
    refine ⟨by omega, ?_, by omega⟩
    rw [lt_min_iff]
    exact ⟨by omega, hiP⟩
  · rw [if_neg ?hc, if_neg h]
    case hc =>
      rintro ⟨h1, h2, h3⟩
      rw [lt_min_iff] at h2
      apply h
      apply Fin.ext
      have h3' : c.val % S = i.val - c.val / S * S := h3
      omega

theorem exprFunctor_jacobian (N : ℕ) {P R : ℕ} (hN : 0 < N) (hP : 0 < P)
    (es : Fin R → Expr P) (params : Fin P → ℚ) (jac0 : Fin R → Fin P → ℚ)
    (res0 : Fin R → ℚ) (k : Fin R) (c : Fin P) :
    (Evaluate N (exprFunctor N es) params jac0 res0).jacobian k c
      = (Expr.evalDual params (fun i => if i = c then 1 else 0) (es k)).2 := by
  rw [Evaluate_success_spec N hN hP (exprFunctor N es) params jac0 res0
    (fun p k => Expr.evalJet (seedJets N params p) (es k)) (fun p _ => rfl)]
  show (Expr.evalJet (seedJets N params (c.val / N)) (es k)).v
      ⟨c.val % N, Nat.mod_lt _ hN⟩ = _
  rw [Expr.evalJet_v]
  have hx : (fun i => (seedJets N params (c.val / N) i).a) = params := rfl
  have hs : (fun i => (seedJets N params (c.val / N) i).v
      ⟨c.val % N, Nat.mod_lt _ hN⟩) = (fun i => if i = c then 1 else 0) :=
    funext fun i => seedJets_basis hN params c i
  rw [hx, hs]

/-- Claim C4 (confirmed): for a cost functor given by one generic expression
per residual (the template functor evaluated at every jet width), the
jacobian produced by the strided evaluation with batch width S equals, entry
for entry, the one produced with width P in a single pass covering all seed
directions — both equal the directional derivative of the expression along
the standard basis vector of the column.  Over the exact rationals the
equality is exact. -/
theorem stride_invariance (S : ℕ) {P R : ℕ} (hS : 0 < S) (hP : 0 < P)
    (es : Fin R → Expr P) (params : Fin P → ℚ)
    (jac0 jac0' : Fin R → Fin P → ℚ) (res0 res0' : Fin R → ℚ) :
    ∀ (k : Fin R) (c : Fin P),
      (Evaluate S (exprFunctor S es) params jac0 res0).jacobian k c
        = (Evaluate P (exprFunctor P es) params jac0' res0').jacobian k c :=
  fun k c => (exprFunctor_jacobian S hS hP es params jac0 res0 k c).trans
    (exprFunctor_jacobian P hP hP es params jac0' res0' k c).symm

/-- Witness for claim C4: the concrete functor x0 * x1, width 1 versus
width 2, at jacobian entry (0, 1). -/
theorem stride_invariance_witness :
    (Evaluate 1 (exprFunctor 1 cxExprs) cxParams cxJac0 cxRes0).jacobian 0 1
      = (Evaluate 2 (exprFunctor 2 cxExprs) cxParams cxJac0 cxRes0).jacobian 0 1 :=
  stride_invariance 1 (by decide) (by decide) cxExprs cxParams cxJac0 cxJac0
    cxRes0 cxRes0 0 1

/-- Claim C5 (confirmed): when all passes succeed, Evaluate invokes the
functor exactly numStrides = ceil(P / S) times (the two bounds pin numStrides
down as the exact ceiling); each pass seeds value components with the
parameters, zeroes every derivative slot except the identity sub-block on the
active slice, and writes only the jacobian columns of the active slice; the
jacobian entry of column c carries the derivative slot c mod S of the pass
c / S that owns it, and the residual buffer holds the value components of the
final pass's outputs, copied exactly once. -/
theorem Evaluate_strided_characterization (S : ℕ) {P R : ℕ} (hS : 0 < S) (hP : 0 < P)
    (F : CostFunctor S P R) (params : Fin P → ℚ) (jac0 : Fin R → Fin P → ℚ)
    (res0 : Fin R → ℚ) (outs : ℕ → Fin R → Jet S)
    (hsucc : ∀ p, p < numStrides S P → F (seedJets S params p) = some (outs p)) :
    (Evaluate S F params jac0 res0).calls = numStrides S P ∧
    P ≤ numStrides S P * S ∧ numStrides S P * S < P + S ∧
    (∀ (pass : ℕ) (c : Fin P), (seedJets S params pass c).a = params c) ∧
    (∀ (pass : ℕ) (c : Fin P) (d : Fin S),
      (seedJets S params pass c).v d
        = if pass * S ≤ c.val ∧ c.val < min ((pass + 1) * S) P ∧ d.val = c.val - pass * S
          then 1 else 0) ∧
    (∀ (pass : ℕ) (out : Fin R → Jet S) (jac : Fin R → Fin P → ℚ) (k : Fin R) (c : Fin P),
      ¬ (pass * S ≤ c.val ∧ c.val < min ((pass + 1) * S) P) →
      writeJac pass out jac k c = jac k c) ∧
    (∀ (k : Fin R) (c : Fin P),
      (Evaluate S F params jac0 res0).jacobian k c
        = (outs (c.val / S) k).v ⟨c.val % S, Nat.mod_lt _ hS⟩) ∧
    (∀ k, (Evaluate S F params jac0 res0).residuals k = (outs (numStrides S P - 1) k).a) ∧
    (Evaluate S F params jac0 res0).ok = true := by
  rw [Evaluate_success_spec S hS hP F params jac0 res0 outs hsucc]
  exact ⟨rfl, (numStrides_bounds S P hS hP).1, (numStrides_bounds S P hS hP).2,
    fun pass c => rfl, fun pass c d => rfl,
    fun pass out jac k c h => by rw [writeJac, dif_neg h],
    fun k c => rfl, fun k => rfl, rfl⟩

/-- Witness for claim C5: the expression functor x0 * x1 at stride 1 with two
parameters makes exactly two passes. -/
theorem Evaluate_strided_characterization_witness :
    (Evaluate 1 (exprFunctor 1 cxExprs) cxParams cxJac0 cxRes0).calls = 2 :=
  ((Evaluate_strided_characterization 1 (by decide) (by decide)
      (exprFunctor 1 cxExprs) cxParams cxJac0 cxRes0
      (fun p k => Expr.evalJet (seedJets 1 cxParams p) (cxExprs k))
      (fun p _ => rfl)).1).trans (by decide)

/-- Claim C9 (confirmed): Evaluate is not atomic on user-function failure —
if the functor fails on pass tf with 0 < tf < numStrides, Evaluate returns
false immediately after tf + 1 invocations, the caller's jacobian buffer
already holds the columns written by the earlier successful passes, and the
residual buffer is left exactly as it was. -/
theorem Evaluate_failure_not_atomic (S : ℕ) {P R : ℕ} (hS : 0 < S) (hP : 0 < P)
    (F : CostFunctor S P R) (params : Fin P → ℚ) (jac0 : Fin R → Fin P → ℚ)
    (res0 : Fin R → ℚ) (outs : ℕ → Fin R → Jet S) (tf : ℕ)
    (_ht0 : 0 < tf) (htn : tf < numStrides S P)
    (hsucc : ∀ p, p < tf → F (seedJets S params p) = some (outs p))
    (hfail : F (seedJets S params tf) = none) :
    (Evaluate S F params jac0 res0).ok = false ∧
    (∀ k, (Evaluate S F params jac0 res0).residuals k = res0 k) ∧
    (∀ (k : Fin R) (c : Fin P), c.val < tf * S →
      (Evaluate S F params jac0 res0).jacobian k c
        = (outs (c.val / S) k).v ⟨c.val % S, Nat.mod_lt _ hS⟩) ∧
    (∀ (k : Fin R) (c : Fin P), tf * S ≤ c.val →
      (Evaluate S F params jac0 res0).jacobian k c = jac0 k c) ∧
    (Evaluate S F params jac0 res0).calls = tf + 1 := by
  rw [Evaluate_fail_spec S hS hP F params jac0 res0 outs tf htn hsucc hfail]
  refine ⟨rfl, fun k => rfl, fun k c hc => ?_, fun k c hc => ?_, rfl⟩
  · dsimp only
    rw [if_pos hc]
  · dsimp only
    rw [if_neg (by omega)]

/-- Witness for claim C9: the concrete stride-1 functor failing on pass 1. -/
theorem Evaluate_failure_not_atomic_witness :
    (Evaluate 1 cxFailDyn cxParams cxJac0 cxRes0).ok = false ∧
    (Evaluate 1 cxFailDyn cxParams cxJac0 cxRes0).calls = 2 :=
  have h := Evaluate_failure_not_atomic 1 (by decide) (by decide) cxFailDyn cxParams
    cxJac0 cxRes0 cxDynOuts 1 (by decide) (by decide)
    (by
      intro p hp
      interval_cases p
      norm_num [cxFailDyn, seedJets, cxParams, cxDynOuts]
      rfl)
    (by norm_num [cxFailDyn, seedJets, cxParams])
  ⟨h.1, h.2.2.2.2⟩

end DynamicAutoDiffCostFunction

namespace TinySolverFunctionAutoDiffAdapter

/-- Claim C8 (confirmed): when a jacobian is requested, operator() seeds
input jet i with value parameters[i] and derivative vector equal to the i-th
standard basis vector, evaluates the cost functor once on all seeds
simultaneously, and on success writes residuals[r] from the value component
of output jet r and row r of the R x P jacobian from its derivative vector;
a failing functor propagates false; with a null jacobian pointer the functor
is called directly on plain scalars. -/
theorem operator_characterization {P R : ℕ} (f : CostFunctor P R) (params : Fin P → ℚ) :
    (∀ i, (seedJetParameters params i).a = params i) ∧
    (∀ i j, (seedJetParameters params i).v j = if j = i then 1 else 0) ∧
    (∀ jetResiduals, f.evalJet (seedJetParameters params) = some jetResiduals →
      operator f params true
        = some (fun r => (jetResiduals r).a, some fun r p => (jetResiduals r).v p)) ∧
    (f.evalJet (seedJetParameters params) = none → operator f params true = none) ∧
    (operator f params false
      = match f.evalScalar params with
        | none => none
        | some residuals => some (residuals, none)) := by
  refine ⟨fun i => rfl, fun i j => rfl, ?_, ?_, rfl⟩
  · intro jr h
    rw [operator, if_neg (by simp), h]
  · intro h
    rw [operator, if_neg (by simp), h]

/-- Witness for claim C8: the concrete functor x0 * x1 on its jet
transcript. -/
theorem operator_characterization_witness :
    operator cxAdapterFunctor cxParams true
      = some (fun r => (cxAdapterJets r).a, some fun r p => (cxAdapterJets r).v p) :=
  (operator_characterization cxAdapterFunctor cxParams).2.2.1 cxAdapterJets rfl

end TinySolverFunctionAutoDiffAdapter
